import Mathlib

/-!
Shallow embedding of the Asgardeo extension service (`ext-service/main.go`):
the pre-issuance token-validation decision engine.  The HTTP transport,
request decoding and the physical reading of `entitlements.json` are out of
scope; the embedding starts from the decoded request and takes the outcome
of `loadEntitlements` (success with parsed data, or failure) as an explicit
`Except` argument.
-/

namespace ExtService

/-- Generic structured value standing for Go's `interface{}` as produced by
`encoding/json`: null, boolean, number (kept as its uninterpreted decimal
text, since the program never reads these values), string, array, object. -/
inductive GoValue where
  | null : GoValue
  | boolean : Bool → GoValue
  | number : String → GoValue
  | string : String → GoValue
  | array : List GoValue → GoValue
  | object : List (String × GoValue) → GoValue

/-- `Header` represents a header in `additionalHeaders` (name plus ordered
value list). -/
structure Header where
  name : String
  value : List String
deriving DecidableEq

/-- `Claim` represents a claim (name with an opaque value). -/
structure Claim where
  name : String
  val : GoValue

/-- `RequestData` carries minimal request info. -/
structure RequestData where
  clientId : String
  grantType : String
  additionalHeaders : List Header

/-- `AccessToken` token info. -/
structure AccessToken where
  scopes : List String
  claims : List Claim

/-- `RefreshToken` refresh token info. -/
structure RefreshToken where
  claims : List Claim

/-- `Event` contains the event data. -/
structure Event where
  request : RequestData
  accessToken : AccessToken
  refreshToken : Option RefreshToken

/-- `Operation` describes an allowed operation offered by the caller. -/
structure Operation where
  op : String
  paths : List String

/-- `Request` is the decoded body of the inbound call. -/
structure Request where
  actionType : String
  event : Event
  allowedOperations : List Operation

/-- `OperationResponse` represents one patch operation in the response.
In the Go source `Value` is `interface{}`, but the program only ever stores
the scope string built by `fmt.Sprintf("%s:%s", ...)` there, so it is a
`String` here. -/
structure OperationResponse where
  op : String
  path : String
  value : String
deriving DecidableEq

/-- `Response` represents the JSON response returned to Asgardeo.  The Go
zero values (nil operations slice, empty strings) are the field defaults. -/
structure Response where
  actionStatus : String
  operations : List OperationResponse := []
  failureReason : String := ""
  failureDescription : String := ""
  errorMessage : String := ""
  errorDescription : String := ""
deriving DecidableEq

/-- `Subject` represents the subject in an entitlement. -/
structure Subject where
  type : String
  id : String
deriving DecidableEq

/-- `Entitlement` represents a single entitlement record. -/
structure Entitlement where
  entitlementId : String
  subject : Subject
  action : String
  object : List (String × GoValue)
  constraints : List (String × GoValue)

/-- `EntitlementsData` represents the parsed structure of
`entitlements.json`. -/
structure EntitlementsData where
  entitlements : List Entitlement

/-- Outcome of one invocation of the handler, as seen by the transport:
either a plain-text HTTP error (`http.Error` with its status code) or an
encoded JSON `Response`. -/
inductive HandlerResult where
  | httpError (status : Nat) (message : String)
  | jsonResponse (response : Response)
deriving DecidableEq

/-- `getHeaderValue` extracts the first value of a header from the
`AdditionalHeaders` array: first entry whose name equals `headerName` and
whose value list is non-empty; `""` when none is found. -/
def getHeaderValue (headers : List Header) (headerName : String) : String :=
  match headers with
  | [] => ""
  | header :: rest =>
    if header.name = headerName ∧ 0 < header.value.length then
      header.value.headD ""
    else
      getHeaderValue rest headerName

/-- The fixed scope string of a matched record:
`fmt.Sprintf("%s:%s", entitlement.Subject.Type, entitlement.Action)`. -/
def scopeOf (entitlement : Entitlement) : String :=
  entitlement.subject.type ++ ":" ++ entitlement.action

/-- The patch operation emitted for a matched record. -/
def opOf (entitlement : Entitlement) : OperationResponse :=
  { op := "add", path := "/accessToken/scopes/-", value := scopeOf entitlement }

/-- Whether an entitlement record matches the extracted partner identifier:
`entitlement.Subject.Type == "partner" && entitlement.Subject.ID == partnerID`. -/
def matchesPartner (partnerID : String) (entitlement : Entitlement) : Bool :=
  entitlement.subject.type == "partner" && entitlement.subject.id == partnerID

/-- The decision core of `handler` (main.go lines 154-204), starting after
the body has been decoded into `req`.  `load` is the outcome of
`loadEntitlements()`: the parsed `EntitlementsData`, or the error it
returned when `entitlements.json` was unreadable or unparseable.  The
matching loop accumulates one operation per matching record by appending,
exactly as the Go `for ... append` loop does. -/
def handler (req : Request) (load : Except String EntitlementsData) : HandlerResult :=
  let partnerID := getHeaderValue req.event.request.additionalHeaders "x-b2b-usp-partner"
  if partnerID = "" then
    .jsonResponse { actionStatus := "SUCCESS" }
  else
    match load with
    | .error _ => .httpError 500 "Internal server error"
    | .ok entitlementsData =>
      let operations := entitlementsData.entitlements.foldl
        (fun ops entitlement =>
          if matchesPartner partnerID entitlement then ops ++ [opOf entitlement] else ops)
        []
      .jsonResponse { actionStatus := "SUCCESS", operations := operations }

/-- The operations carried by a handler outcome (an `http.Error` reply
carries none). -/
def resultOperations : HandlerResult → List OperationResponse
  | .jsonResponse r => r.operations
  | .httpError _ _ => []

/-- Whether a handler outcome is the internal-error reply the code produces
on a snapshot load failure. -/
def isInternalErrorResult : HandlerResult → Bool
  | .httpError status _ => status == 500
  | .jsonResponse _ => false

/-- One `log.Printf` emission of the handler, carrying the data it formats. -/
inductive LogEntry where
  | processing (actionType clientId : String)
  | additionalHeadersHeader
  | headerEntry (name : String) (value : List String)
  | partnerMissingWarning
  | partnerId (id : String)
  | loadError (message : String)
  | addedScope (scope partnerID : String)

/-- `handler` with the logger's state threaded explicitly: the returned list
is the logger state after the call.  Mirrors the `log.Printf` calls of
main.go lines 144-204 in source order (the transport-level dumps of lines
107-131 precede decoding and are outside the embedding). -/
def handlerLog (req : Request) (load : Except String EntitlementsData)
    (logState : List LogEntry) : HandlerResult × List LogEntry :=
  let log1 := logState ++ [.processing req.actionType req.event.request.clientId]
  let headers := req.event.request.additionalHeaders
  let log2 :=
    if 0 < headers.length then
      log1 ++ .additionalHeadersHeader :: headers.map (fun h => .headerEntry h.name h.value)
    else log1
  let partnerID := getHeaderValue headers "x-b2b-usp-partner"
  if partnerID = "" then
    (.jsonResponse { actionStatus := "SUCCESS" }, log2 ++ [.partnerMissingWarning])
  else
    let log3 := log2 ++ [.partnerId partnerID]
    match load with
    | .error msg => (.httpError 500 "Internal server error", log3 ++ [.loadError msg])
    | .ok entitlementsData =>
      let step := fun (acc : List OperationResponse × List LogEntry) entitlement =>
        if matchesPartner partnerID entitlement then
          (acc.1 ++ [opOf entitlement], acc.2 ++ [.addedScope (scopeOf entitlement) partnerID])
        else acc
      let result := entitlementsData.entitlements.foldl step ([], log3)
      (.jsonResponse { actionStatus := "SUCCESS", operations := result.1 }, result.2)

/-- The log entries one call appends to the logger, as a function of the
inputs (used to state that logging is the handler's only side effect). -/
def emittedLog (req : Request) (load : Except String EntitlementsData) : List LogEntry :=
  let headers := req.event.request.additionalHeaders
  let partnerID := getHeaderValue headers "x-b2b-usp-partner"
  LogEntry.processing req.actionType req.event.request.clientId ::
    (if 0 < headers.length then
        LogEntry.additionalHeadersHeader :: headers.map (fun h => .headerEntry h.name h.value)
      else []) ++
    (if partnerID = "" then [LogEntry.partnerMissingWarning]
      else LogEntry.partnerId partnerID ::
        match load with
        | .error msg => [LogEntry.loadError msg]
        | .ok entitlementsData =>
          (entitlementsData.entitlements.filter (matchesPartner partnerID)).map
            (fun e => .addedScope (scopeOf e) partnerID))

/-- A minimal decoded request whose event carries the given additional
headers; the other fields are arbitrary since the engine never reads them. -/
def mkRequest (headers : List Header) : Request :=
  { actionType := "PRE_ISSUE_ACCESS_TOKEN"
    event :=
      { request :=
          { clientId := "client-1", grantType := "client_credentials",
            additionalHeaders := headers }
        accessToken := { scopes := [], claims := [] }
        refreshToken := none }
    allowedOperations := [] }

/-- An entitlement record with the given subject type, subject id and
action, and empty opaque fields. -/
def mkEntitlement (subjectType subjectId action : String) : Entitlement :=
  { entitlementId := "ent-1", subject := { type := subjectType, id := subjectId },
    action := action, object := [], constraints := [] }

/-- Request carrying `x-b2b-usp-partner: ACME`. -/
def reqACME : Request := mkRequest [{ name := "x-b2b-usp-partner", value := ["ACME"] }]

/-- Snapshot with the single record `{subject:{type:"partner",id:"ACME"},action:"read"}`. -/
def snapACME : EntitlementsData := ⟨[mkEntitlement "partner" "ACME" "read"]⟩

/-- Request carrying `x-b2b-usp-partner: P1`. -/
def reqP1 : Request := mkRequest [{ name := "x-b2b-usp-partner", value := ["P1"] }]

/-- Snapshot `[{partner,P1,invoke}, {partner,P2,view}]` from the end-to-end
scenario. -/
def snapP1P2 : EntitlementsData :=
  ⟨[mkEntitlement "partner" "P1" "invoke", mkEntitlement "partner" "P2" "view"]⟩

/-- A request carrying the partner header `P1` together with distinctive
values in every field the engine is not supposed to read. -/
def reqVarA : Request :=
  { actionType := "PRE_ISSUE_ACCESS_TOKEN"
    event :=
      { request :=
          { clientId := "client-A", grantType := "authorization_code",
            additionalHeaders := [{ name := "x-b2b-usp-partner", value := ["P1"] }] }
        accessToken :=
          { scopes := ["openid", "profile"],
            claims := [{ name := "aud", val := .string "app-A" }] }
        refreshToken := none }
    allowedOperations := [{ op := "add", paths := ["/accessToken/scopes/-"] }] }

/-- Same additional headers as `reqVarA`, every other field different. -/
def reqVarB : Request :=
  { actionType := "PRE_ISSUE_REFRESH_TOKEN"
    event :=
      { request :=
          { clientId := "client-B", grantType := "client_credentials",
            additionalHeaders := [{ name := "x-b2b-usp-partner", value := ["P1"] }] }
        accessToken := { scopes := [], claims := [] }
        refreshToken := some { claims := [{ name := "sub", val := .string "user-B" }] } }
    allowedOperations := [] }

/-! ## Helper lemmas -/

/-- A fold that conditionally appends one element per item is the map of the
filtered list, appended to the accumulator. -/
theorem foldl_append_eq {α β : Type} (p : α → Bool) (f : α → β) :
    ∀ (l : List α) (init : List β),
      l.foldl (fun acc x => if p x then acc ++ [f x] else acc) init
        = init ++ (l.filter p).map f := by
  intro l
  induction l with
  | nil => intro init; simp
  | cons x xs ih =>
    intro init
    by_cases h : p x
    · simp [List.filter_cons, h, ih]
    · simp [List.filter_cons, h, ih]

/-- The Bool guard of `getHeaderValue`, phrased as the propositional guard
used in its definition. -/
theorem headerMatch_iff (h : Header) (n : String) :
    (h.name == n && !h.value.isEmpty) = true ↔ (h.name = n ∧ 0 < h.value.length) := by
  simp [List.isEmpty_iff, List.length_pos]

/-- When no entry bears the requested name, extraction yields the empty
string. -/
theorem getHeaderValue_eq_empty_of_no_name (headers : List Header) (n : String)
    (h : ∀ hd ∈ headers, hd.name ≠ n) : getHeaderValue headers n = "" := by
  induction headers with
  | nil => rfl
  | cons hd rest ih =>
    rw [getHeaderValue, if_neg]
    · exact ih fun x hx => h x (List.mem_cons_of_mem hd hx)
    · exact fun hc => h hd (List.mem_cons_self hd rest) hc.1

/-- On a successfully loaded snapshot and a non-empty partner id, the
handler's operations are the map over the filtered entitlements. -/
theorem handler_ok_operations (req : Request) (d : EntitlementsData) (pid : String)
    (hpid : pid = getHeaderValue req.event.request.additionalHeaders "x-b2b-usp-partner")
    (hne : pid ≠ "") :
    handler req (.ok d)
      = .jsonResponse
          { actionStatus := "SUCCESS"
            operations := (d.entitlements.filter (matchesPartner pid)).map opOf } := by
  subst hpid
  simp only [handler]
  rw [if_neg hne, foldl_append_eq]
  simp

/-! ## Claim theorems -/

/-- C10: `getHeaderValue` returns the first element of the value list of the
first entry whose name matches and whose value list is non-empty; an entry
with a matching name but an empty value list is skipped, so a later matching
entry can still supply the value; the element access is the guarded head of
a list known non-empty, so it never goes out of bounds. -/
theorem c10_getHeaderValue_first_nonempty (headers : List Header) (headerName : String) :
    getHeaderValue headers headerName
      = ((headers.find? (fun h => h.name == headerName && !h.value.isEmpty)).map
          (fun h => h.value.headD "")).getD "" := by
  induction headers with
  | nil => rfl
  | cons hd rest ih =>
    by_cases hc : hd.name = headerName ∧ 0 < hd.value.length
    · rw [getHeaderValue, if_pos hc,
        @List.find?_cons_of_pos _ (fun h => h.name == headerName && !h.value.isEmpty) hd rest
          ((headerMatch_iff hd headerName).mpr hc)]
      rfl
    · rw [getHeaderValue, if_neg hc, ih,
        @List.find?_cons_of_neg _ (fun h => h.name == headerName && !h.value.isEmpty) hd rest
          (fun hcontra => hc ((headerMatch_iff hd headerName).mp hcontra))]

/-- C6: header lookup compares names by exact, case-sensitive equality (an
entry differing only in letter case is skipped), and when the matching entry
carries several values the first one is returned. -/
theorem c6_header_exact_match :
    (∀ (n v : String) (vs : List String) (rest : List Header),
        getHeaderValue ({ name := n, value := v :: vs } :: rest) n = v)
    ∧ (∀ (hd : Header) (rest : List Header) (n : String),
        hd.name ≠ n → getHeaderValue (hd :: rest) n = getHeaderValue rest n)
    ∧ getHeaderValue [{ name := "X-B2B-USP-Partner", value := ["ACME"] }]
        "x-b2b-usp-partner" = "" := by
  refine ⟨?_, ?_, ?_⟩
  · intro n v vs rest
    rw [getHeaderValue, if_pos ⟨rfl, Nat.succ_pos vs.length⟩]
    rfl
  · intro hd rest n hne
    rw [getHeaderValue, if_neg]
    exact fun hc => hne hc.1
  · decide

/-- C6 witness: a non-matching entry ahead of the partner header is skipped. -/
theorem c6_header_exact_match_witness :
    ({ name := "x-other", value := ["v"] } : Header).name ≠ "x-b2b-usp-partner"
    ∧ getHeaderValue
        [{ name := "x-other", value := ["v"] },
          { name := "x-b2b-usp-partner", value := ["P9"] }] "x-b2b-usp-partner"
      = getHeaderValue [{ name := "x-b2b-usp-partner", value := ["P9"] }] "x-b2b-usp-partner" :=
  ⟨by decide, c6_header_exact_match.2.1 _ _ _ (by decide)⟩

/-- C3: when `additionalHeaders` has no entry named `x-b2b-usp-partner`, or
the extracted value is the empty string, the handler answers `SUCCESS` with
an empty operation list, whatever the entitlement snapshot (even a failed
load). -/
theorem c3_no_partner_success (req : Request) (load : Except String EntitlementsData)
    (h : (∀ hd ∈ req.event.request.additionalHeaders, hd.name ≠ "x-b2b-usp-partner")
        ∨ getHeaderValue req.event.request.additionalHeaders "x-b2b-usp-partner" = "") :
    handler req load = .jsonResponse { actionStatus := "SUCCESS", operations := [] } := by
  have hempty : getHeaderValue req.event.request.additionalHeaders "x-b2b-usp-partner" = "" := by
    rcases h with h | h
    · exact getHeaderValue_eq_empty_of_no_name _ _ h
    · exact h
  simp [handler, hempty]

/-- C3 witness: a header entry with an empty value list yields `SUCCESS`
with no operations even though the snapshot load failed. -/
theorem c3_no_partner_success_witness :
    getHeaderValue (mkRequest [{ name := "x-b2b-usp-partner", value := [] }]).event.request.additionalHeaders
        "x-b2b-usp-partner" = ""
    ∧ handler (mkRequest [{ name := "x-b2b-usp-partner", value := [] }]) (.error "unreadable")
        = .jsonResponse { actionStatus := "SUCCESS", operations := [] } :=
  ⟨by decide, c3_no_partner_success _ _ (Or.inr (by decide))⟩

/-- C1: with a non-empty extracted partner identifier and a loaded snapshot,
the handler emits exactly one operation per record whose `subject.type` is
`"partner"` and whose `subject.id` equals the identifier (exact string
equality), with value `subject.type ++ ":" ++ action`, and nothing for any
other record. -/
theorem c1_partner_match_ops (req : Request) (d : EntitlementsData) (pid : String)
    (hpid : pid = getHeaderValue req.event.request.additionalHeaders "x-b2b-usp-partner")
    (hne : pid ≠ "") :
    handler req (.ok d)
      = .jsonResponse
          { actionStatus := "SUCCESS"
            operations := (d.entitlements.filter
                (fun e => e.subject.type == "partner" && e.subject.id == pid)).map
              (fun e => { op := "add", path := "/accessToken/scopes/-",
                          value := e.subject.type ++ ":" ++ e.action }) } := by
  rw [handler_ok_operations req d pid hpid hne]
  rfl

/-- C1 witness: the end-to-end fixture evaluated through the theorem. -/
theorem c1_partner_match_ops_witness :
    "P1" = getHeaderValue reqP1.event.request.additionalHeaders "x-b2b-usp-partner"
    ∧ ("P1" : String) ≠ ""
    ∧ handler reqP1 (.ok snapP1P2)
        = .jsonResponse
            { actionStatus := "SUCCESS"
              operations := (snapP1P2.entitlements.filter
                  (fun e => e.subject.type == "partner" && e.subject.id == "P1")).map
                (fun e => { op := "add", path := "/accessToken/scopes/-",
                            value := e.subject.type ++ ":" ++ e.action }) } :=
  ⟨by decide, by decide, c1_partner_match_ops reqP1 snapP1P2 "P1" (by decide) (by decide)⟩

/-- C4: the emitted operation list has exactly as many elements as there are
matching records, and position `i` of the output is computed from position
`i` of the filtered snapshot — order is preserved and duplicates are kept. -/
theorem c4_order_preservation (req : Request) (d : EntitlementsData) (pid : String)
    (hpid : pid = getHeaderValue req.event.request.additionalHeaders "x-b2b-usp-partner")
    (hne : pid ≠ "") :
    (resultOperations (handler req (.ok d))).length
        = (d.entitlements.filter (matchesPartner pid)).length
    ∧ ∀ i : Nat,
        (resultOperations (handler req (.ok d)))[i]?
          = ((d.entitlements.filter (matchesPartner pid))[i]?).map opOf := by
  rw [handler_ok_operations req d pid hpid hne]
  constructor
  · simp [resultOperations]
  · intro i
    simp [resultOperations]

/-- C4 witness: a snapshot holding the same record twice yields two
operations (no deduplication), via the theorem's length clause. -/
theorem c4_order_preservation_witness :
    "ACME" = getHeaderValue reqACME.event.request.additionalHeaders "x-b2b-usp-partner"
    ∧ ("ACME" : String) ≠ ""
    ∧ (resultOperations (handler reqACME
          (.ok ⟨[mkEntitlement "partner" "ACME" "read", mkEntitlement "partner" "ACME" "read"]⟩))).length
        = ((⟨[mkEntitlement "partner" "ACME" "read", mkEntitlement "partner" "ACME" "read"]⟩ :
              EntitlementsData).entitlements.filter (matchesPartner "ACME")).length :=
  ⟨by decide, by decide,
    (c4_order_preservation reqACME
        ⟨[mkEntitlement "partner" "ACME" "read", mkEntitlement "partner" "ACME" "read"]⟩
        "ACME" (by decide) (by decide)).1⟩

/-- C5: every emitted operation has `op = "add"`, the fixed append-to-scopes
path, and originates from a snapshot record whose `subject.type` is
`"partner"`; a failed load emits no operation at all. -/
theorem c5_op_shape_invariant :
    (∀ (req : Request) (d : EntitlementsData) (o : OperationResponse),
        o ∈ resultOperations (handler req (.ok d)) →
          o.op = "add" ∧ o.path = "/accessToken/scopes/-"
          ∧ ∃ e ∈ d.entitlements, e.subject.type = "partner"
              ∧ o.value = e.subject.type ++ ":" ++ e.action)
    ∧ (∀ (req : Request) (msg : String),
        resultOperations (handler req (.error msg)) = []) := by
  constructor
  · intro req d o hmem
    by_cases hne : getHeaderValue req.event.request.additionalHeaders "x-b2b-usp-partner" = ""
    · simp [handler, hne, resultOperations] at hmem
    · rw [handler_ok_operations req d _ rfl hne] at hmem
      simp [resultOperations, List.mem_filter, matchesPartner] at hmem
      obtain ⟨e, ⟨he, htype, _⟩, rfl⟩ := hmem
      exact ⟨rfl, rfl, e, he, htype, by simp [opOf, scopeOf]⟩
  · intro req msg
    by_cases hne : getHeaderValue req.event.request.additionalHeaders "x-b2b-usp-partner" = ""
    · simp [handler, hne, resultOperations]
    · simp [handler, hne, resultOperations]

/-- C5 witness: the ACME fixture emits an operation, and the theorem tags it
with `op = "add"`. -/
theorem c5_op_shape_invariant_witness :
    ({ op := "add", path := "/accessToken/scopes/-", value := "partner:read" } :
        OperationResponse) ∈ resultOperations (handler reqACME (.ok snapACME))
    ∧ ({ op := "add", path := "/accessToken/scopes/-", value := "partner:read" } :
        OperationResponse).op = "add" :=
  ⟨by decide, (c5_op_shape_invariant.1 reqACME snapACME _ (by decide)).1⟩

/-- C2 counterexample: for an event without the partner header, a failed
snapshot load still yields `SUCCESS` with no operations — not an
internal-error status — because the handler never consults the snapshot on
that path. -/
theorem c2_success_despite_bad_snapshot :
    handler (mkRequest []) (.error "read failure") = .jsonResponse { actionStatus := "SUCCESS" }
    ∧ isInternalErrorResult (handler (mkRequest []) (.error "read failure")) = false := by
  decide

/-- C2 (amended): for every event with a non-empty extracted partner
identifier, an unreadable or unparseable snapshot makes the handler return
the internal-error reply (HTTP 500) with zero operations — never a partial
list, and, being a returned value, never process termination. -/
theorem c2_load_failure_internal_error (req : Request) (msg : String)
    (hne : getHeaderValue req.event.request.additionalHeaders "x-b2b-usp-partner" ≠ "") :
    handler req (.error msg) = .httpError 500 "Internal server error"
    ∧ resultOperations (handler req (.error msg)) = []
    ∧ isInternalErrorResult (handler req (.error msg)) = true := by
  have h1 : handler req (.error msg) = .httpError 500 "Internal server error" := by
    simp [handler, hne]
  exact ⟨h1, by rw [h1]; rfl, by rw [h1]; rfl⟩

/-- C2 witness: the ACME request with a corrupt snapshot hits the 500 path. -/
theorem c2_load_failure_internal_error_witness :
    getHeaderValue reqACME.event.request.additionalHeaders "x-b2b-usp-partner" ≠ ""
    ∧ handler reqACME (.error "parse failure") = .httpError 500 "Internal server error" :=
  ⟨by decide, (c2_load_failure_internal_error reqACME "parse failure" (by decide)).1⟩

/-- C8: the two concrete spec scenarios: a one-record ACME snapshot (for any
entitlement carrying that subject and action, and any event whose extracted
header value is `"ACME"`) yields exactly `partner:read`; the P1/P2 snapshot
with header `P1` yields exactly `partner:invoke`. -/
theorem c8_concrete_scenarios :
    (∀ (req : Request) (e : Entitlement),
        getHeaderValue req.event.request.additionalHeaders "x-b2b-usp-partner" = "ACME" →
        e.subject = { type := "partner", id := "ACME" } →
        e.action = "read" →
        handler req (.ok ⟨[e]⟩)
          = .jsonResponse
              { actionStatus := "SUCCESS"
                operations := [{ op := "add", path := "/accessToken/scopes/-",
                                 value := "partner:read" }] })
    ∧ handler reqP1 (.ok snapP1P2)
        = .jsonResponse
            { actionStatus := "SUCCESS"
              operations := [{ op := "add", path := "/accessToken/scopes/-",
                               value := "partner:invoke" }] } := by
  constructor
  · intro req e hhdr hsubj hact
    rw [handler_ok_operations req ⟨[e]⟩ "ACME" hhdr.symm (by decide)]
    simp [matchesPartner, opOf, scopeOf, hsubj, hact]
  · decide

/-- C8 witness: the first scenario instantiated at the ACME fixtures. -/
theorem c8_concrete_scenarios_witness :
    getHeaderValue reqACME.event.request.additionalHeaders "x-b2b-usp-partner" = "ACME"
    ∧ handler reqACME (.ok ⟨[mkEntitlement "partner" "ACME" "read"]⟩)
        = .jsonResponse
            { actionStatus := "SUCCESS"
              operations := [{ op := "add", path := "/accessToken/scopes/-",
                               value := "partner:read" }] } :=
  ⟨by decide,
    c8_concrete_scenarios.1 reqACME (mkEntitlement "partner" "ACME" "read")
      (by decide) rfl rfl⟩

/-- C9: two events that agree on `additionalHeaders` but differ arbitrarily
elsewhere (clientId, grantType, token scopes, claims, refresh token) get the
same handler outcome against the same snapshot: nothing else of the event is
read. -/
theorem c9_noninterference (req1 req2 : Request) (load : Except String EntitlementsData)
    (h : req1.event.request.additionalHeaders = req2.event.request.additionalHeaders) :
    handler req1 load = handler req2 load := by
  simp only [handler, h]

/-- C9 witness: two fixtures differing in every non-header field evaluate
identically. -/
theorem c9_noninterference_witness :
    reqVarA.event.request.additionalHeaders = reqVarB.event.request.additionalHeaders
    ∧ handler reqVarA (.ok snapP1P2) = handler reqVarB (.ok snapP1P2) :=
  ⟨rfl, c9_noninterference reqVarA reqVarB (.ok snapP1P2) rfl⟩

/-- A fold threading both the operation list and the log splits into the two
independent folds. -/
theorem foldl_pair_eq (pid : String) :
    ∀ (l : List Entitlement) (a : List OperationResponse) (b : List LogEntry),
      l.foldl
        (fun acc e =>
          if matchesPartner pid e then
            (acc.1 ++ [opOf e], acc.2 ++ [.addedScope (scopeOf e) pid])
          else acc) (a, b)
        = (a ++ (l.filter (matchesPartner pid)).map opOf,
            b ++ (l.filter (matchesPartner pid)).map (fun e => .addedScope (scopeOf e) pid)) := by
  intro l
  induction l with
  | nil => intro a b; simp
  | cons x xs ih =>
    intro a b
    by_cases h : matchesPartner pid x
    · simp [List.filter_cons, h, ih]
    · simp [List.filter_cons, h, ih]

/-- The logging handler returns exactly the pure handler's result and only
appends `emittedLog` to the logger state. -/
theorem handlerLog_eq (req : Request) (load : Except String EntitlementsData)
    (logState : List LogEntry) :
    handlerLog req load logState = (handler req load, logState ++ emittedLog req load) := by
  by_cases hh : 0 < req.event.request.additionalHeaders.length
  all_goals by_cases hne :
    getHeaderValue req.event.request.additionalHeaders "x-b2b-usp-partner" = ""
  all_goals cases load
  all_goals
    simp [handlerLog, handler, emittedLog, hne, hh, foldl_pair_eq, foldl_append_eq,
      List.append_assoc]

/-- C7: evaluation is deterministic and logging is its only side effect: the
result is independent of the logger's prior state, coincides with the pure
`handler` function of the event and snapshot, and the logger state is only
ever appended to. -/
theorem c7_deterministic_no_side_effects (req : Request)
    (load : Except String EntitlementsData) (log1 log2 : List LogEntry) :
    (handlerLog req load log1).1 = (handlerLog req load log2).1
    ∧ (handlerLog req load log1).1 = handler req load
    ∧ (handlerLog req load log1).2 = log1 ++ emittedLog req load := by
  rw [handlerLog_eq, handlerLog_eq]
  exact ⟨rfl, rfl, rfl⟩

end ExtService
